import Mathlib

/-!
Verification of the knowledge-indexing and semantic-search core of the
`aix` repository (`src/xlmcp/tools/rag/` and the aggregate search path of
`src/xlmcp/server.py`).

The Python source is shallowly embedded: pure helpers become Lean
functions over `List Char` / `String`, the stateful indexing pass becomes
an explicit state-passing function over a filesystem snapshot, a tracking
record and a vector-store contents list, and the external collaborators
(the AST / JSON / front-matter parsing libraries, the embedding function
and the chunk splitter) are taken as parameters, exactly as the spec
treats them (black boxes behind interfaces).

Python regular-expression passes are embedded as left-to-right scanners.
Each scanner carries a `fuel` argument; the wrappers supply
`fuel = input length`, which is enough because every step consumes at
least one character, so the embedded functions compute the same result as
the `re` passes they model.
-/

/-! ## Character classes used by the regular expressions in
`xlmcp/tools/rag/metadata.py` -/

/-- The backtick character (code point 96). -/
def backtickChar : Char := Char.ofNat 96

/-- `[a-zA-Z0-9_-]`: the characters allowed after `#letter` in a hashtag. -/
def isTagChar (c : Char) : Bool :=
  c.isAlphanum || c = '_' || c = '-'

/-- `\w`: word characters, used for the `\b` boundary in the
`style=` attribute pass. -/
def isWordChar (c : Char) : Bool :=
  c.isAlphanum || c = '_'

/-- `\s`: whitespace as matched by Python `re`. -/
def isPySpace (c : Char) : Bool :=
  c = ' ' || c = '\t' || c = '\n' || c = '\r' ||
  c = Char.ofNat 11 || c = Char.ofNat 12

/-- `[a-fA-F0-9]`: hex digits. -/
def isHexDigitChar (c : Char) : Bool :=
  c.isDigit || ('a' ≤ c && c ≤ 'f') || ('A' ≤ c && c ≤ 'F')

/-- A single or double quote, the class `['"]`. -/
def isQuoteChar (c : Char) : Bool :=
  c = '\'' || c = '"'

/-- Drop characters up to and including the first occurrence of the
pattern `pat`; `none` if `pat` never occurs.  Models the regex engine
searching for a closing delimiter. -/
def dropThroughPat (pat : List Char) : List Char → Option (List Char)
  | [] => none
  | c :: cs =>
    if pat.isPrefixOf (c :: cs) then some ((c :: cs).drop pat.length)
    else dropThroughPat pat cs

/-- Case-insensitive prefix test (for the `re.IGNORECASE` passes). -/
def ciHasPrefix (pat : List Char) (cs : List Char) : Bool :=
  (cs.take pat.length).map Char.toLower = pat

/-- Case-insensitive version of `dropThroughPat`. -/
def dropThroughPatCI (pat : List Char) : List Char → Option (List Char)
  | [] => none
  | c :: cs =>
    if ciHasPrefix pat (c :: cs) then some ((c :: cs).drop pat.length)
    else dropThroughPatCI pat cs

/-- Drop characters up to and including the first quote character
(the tail `[^'"]*['"]` of the style-attribute regex). -/
def dropThroughQuote : List Char → Option (List Char)
  | [] => none
  | c :: cs => if isQuoteChar c then some cs else dropThroughQuote cs

/-! ## `extract_inline_hashtags` (metadata.py lines 17-79)

The five `re.sub` passes and the final `re.findall`, embedded as
left-to-right scanners with the same leftmost, non-overlapping match
semantics: on a failed match the scanner copies one character and
advances, on a successful match it emits the (empty) replacement and
continues after the match. -/

/-- Pass 1: `re.sub(r"```[\s\S]*?```", "", text)` — remove fenced code
blocks (lazy: the closing fence is the first one after the opener). -/
def stripCodeBlocksAux : Nat → List Char → List Char
  | 0, cs => cs
  | _ + 1, [] => []
  | fuel + 1, c :: cs =>
    if c = backtickChar ∧ cs.take 2 = [backtickChar, backtickChar] then
      match dropThroughPat [backtickChar, backtickChar, backtickChar] (cs.drop 2) with
      | some rest => stripCodeBlocksAux fuel rest
      | none => c :: stripCodeBlocksAux fuel cs
    else c :: stripCodeBlocksAux fuel cs

def stripCodeBlocks (cs : List Char) : List Char :=
  stripCodeBlocksAux cs.length cs

/-- Pass 2: `re.sub(r"`[^`]*`", "", text)` — remove inline code. -/
def stripInlineCodeAux : Nat → List Char → List Char
  | 0, cs => cs
  | _ + 1, [] => []
  | fuel + 1, c :: cs =>
    if c = backtickChar then
      match dropThroughPat [backtickChar] cs with
      | some rest => stripInlineCodeAux fuel rest
      | none => c :: stripInlineCodeAux fuel cs
    else c :: stripInlineCodeAux fuel cs

def stripInlineCode (cs : List Char) : List Char :=
  stripInlineCodeAux cs.length cs

/-- Pass 3: `re.sub(r"<[^>]+>", "", text)` — remove HTML/XML tags
(at least one non-`>` character between the angle brackets). -/
def stripHtmlTagsAux : Nat → List Char → List Char
  | 0, cs => cs
  | _ + 1, [] => []
  | fuel + 1, c :: cs =>
    if c = '<' then
      match cs with
      | [] => [c]
      | d :: ds =>
        if d = '>' then c :: stripHtmlTagsAux fuel cs
        else
          match dropThroughPat ['>'] (d :: ds) with
          | some rest => stripHtmlTagsAux fuel rest
          | none => c :: stripHtmlTagsAux fuel cs
    else c :: stripHtmlTagsAux fuel cs

def stripHtmlTags (cs : List Char) : List Char :=
  stripHtmlTagsAux cs.length cs

/-- Pass 4: `re.sub(r"<style[\s\S]*?</style>", "", text, flags=IGNORECASE)`. -/
def stripStyleBlocksAux : Nat → List Char → List Char
  | 0, cs => cs
  | _ + 1, [] => []
  | fuel + 1, c :: cs =>
    if ciHasPrefix "<style".toList (c :: cs) then
      match dropThroughPatCI "</style>".toList ((c :: cs).drop 6) with
      | some rest => stripStyleBlocksAux fuel rest
      | none => c :: stripStyleBlocksAux fuel cs
    else c :: stripStyleBlocksAux fuel cs

def stripStyleBlocks (cs : List Char) : List Char :=
  stripStyleBlocksAux cs.length cs

/-- The tail `\s*=\s*['"][^'"]*['"]` of the style-attribute regex,
starting right after the literal `style`. -/
def matchStyleAttrTail (cs : List Char) : Option (List Char) :=
  match cs.dropWhile isPySpace with
  | '=' :: cs2 =>
    match cs2.dropWhile isPySpace with
    | q :: cs4 => if isQuoteChar q then dropThroughQuote cs4 else none
    | [] => none
  | _ => none

/-- Pass 5: `re.sub(r"\bstyle\s*=\s*['\"][^'\"]*['\"]", "", text,
flags=IGNORECASE)`.  The flag tracks whether the previous kept character
is a word character, giving the `\b` boundary before `style`. -/
def stripStyleAttrsAux : Nat → Bool → List Char → List Char
  | 0, _, cs => cs
  | _ + 1, _, [] => []
  | fuel + 1, prevIsWord, c :: cs =>
    if ¬prevIsWord ∧ ciHasPrefix "style".toList (c :: cs) then
      match matchStyleAttrTail ((c :: cs).drop 5) with
      | some rest => stripStyleAttrsAux fuel false rest
      | none => c :: stripStyleAttrsAux fuel (isWordChar c) cs
    else c :: stripStyleAttrsAux fuel (isWordChar c) cs

def stripStyleAttrs (cs : List Char) : List Char :=
  stripStyleAttrsAux cs.length false cs

/-- `re.findall(r"#[a-zA-Z][a-zA-Z0-9_-]*", text)`: leftmost,
non-overlapping, greedy matches. -/
def findHashtagsAux : Nat → List Char → List (List Char)
  | 0, _ => []
  | _ + 1, [] => []
  | fuel + 1, c :: cs =>
    if c = '#' then
      match cs with
      | [] => []
      | d :: ds =>
        if d.isAlpha then
          ('#' :: d :: ds.takeWhile isTagChar) ::
            findHashtagsAux fuel (ds.dropWhile isTagChar)
        else findHashtagsAux fuel (d :: ds)
    else findHashtagsAux fuel cs

def findHashtags (cs : List Char) : List (List Char) :=
  findHashtagsAux cs.length cs

/-- `re.findall` of the hashtag pattern over a string
(the raw matches, before any validity filtering). -/
def find_hashtag_matches (s : String) : List String :=
  (findHashtags s.toList).map fun l => String.mk l

/-- `tag[1:] if tag.startswith('#') else tag`, on the character list. -/
def withoutHash (cs : List Char) : List Char :=
  match cs with
  | '#' :: rest => rest
  | _ => cs

/-- `is_hex_color` (metadata.py lines 51-58): the part after `#` is all
hex digits and has length 3, 4, 6 or 8. -/
def is_hex_color (tag : String) : Bool :=
  let cs := withoutHash tag.toList
  cs ≠ [] && cs.all isHexDigitChar &&
    (cs.length = 3 || cs.length = 4 || cs.length = 6 || cs.length = 8)

/-- `is_heading_marker` (metadata.py lines 60-64): the part after `#`
matches `h\d+` case-insensitively. -/
def is_heading_marker (tag : String) : Bool :=
  match withoutHash tag.toList with
  | h :: rest => (h = 'h' || h = 'H') && rest ≠ [] && rest.all Char.isDigit
  | [] => false

/-- `is_valid_tag` (metadata.py lines 66-74): length above 2 (the whole
token, `#` included), not a hex color, not a heading marker. -/
def is_valid_tag (tag : String) : Bool :=
  ¬(tag.toList.length ≤ 2) && ¬is_hex_color tag && ¬is_heading_marker tag

/-- `extract_inline_hashtags` (metadata.py lines 17-79).  The final
`list(set(tags))` has unspecified order in Python; it is modelled by
`List.dedup`, and every statement about the result is order-insensitive
(membership or `toFinset`). -/
def extract_inline_hashtags (text : String) : List String :=
  let cs := text.toList
  let cs := stripCodeBlocks cs
  let cs := stripInlineCode cs
  let cs := stripHtmlTags cs
  let cs := stripStyleBlocks cs
  let cs := stripStyleAttrs cs
  let tags := (findHashtags cs).map fun l => String.mk l
  (tags.filter is_valid_tag).dedup

/-! ## Storage-layer path slugs (storage.py lines 33-82, 136-141)

`sanitize_directory_name` works on `Path(dir_path).expanduser().resolve().parts`.
Path resolution is the operating system's; the embedding takes the parts
list of the already-resolved absolute POSIX path (`"/"` followed by the
components), produced from a path string by `path_parts`. -/

/-- Split a character list on a separator character. -/
def splitOnChar (sep : Char) : List Char → List (List Char)
  | [] => [[]]
  | c :: cs =>
    match splitOnChar sep cs with
    | [] => if c = sep then [[], []] else [[c]]
    | g :: gs => if c = sep then [] :: g :: gs else (c :: g) :: gs

/-- `Path(p).parts` for an absolute, already-resolved POSIX path:
the root `"/"` followed by the non-empty components. -/
def path_parts (p : String) : List String :=
  "/" :: ((splitOnChar '/' p.toList).filter (· ≠ [])).map fun l => String.mk l

/-- `"-".join(name_parts)` on character lists. -/
def intercalateChar (sep : Char) : List (List Char) → List Char
  | [] => []
  | [g] => g
  | g :: gs => g ++ sep :: intercalateChar sep gs

/-- Collapse consecutive hyphens to one, so that mapping every
non-alphanumeric character to `'-'` and then collapsing equals
`re.sub(r"[^a-zA-Z0-9]+", "-", name)`. -/
def collapseHyphens (cs : List Char) : List Char :=
  cs.foldr (fun c acc =>
    if c = '-' ∧ acc.head? = some '-' then acc else c :: acc) []

/-- `str.strip("-")`: drop leading and trailing hyphens. -/
def stripHyphens (cs : List Char) : List Char :=
  ((cs.dropWhile (· = '-')).reverse.dropWhile (· = '-')).reverse

/-- `sanitize_directory_name` (storage.py lines 33-60), taking the parts
of the resolved absolute path: keep the last two components, join with
`-`, replace runs of non-alphanumerics by `-`, strip `-`, lowercase. -/
def sanitize_directory_name (parts : List String) : String :=
  let name_parts := if parts.length ≥ 2 then parts.drop (parts.length - 2) else parts
  let name := intercalateChar '-' (name_parts.map String.toList)
  let name := collapseHyphens (name.map fun c => if c.isAlphanum then c else '-')
  let name := stripHyphens name
  String.mk (name.map Char.toLower)

/-- `get_collection_name` (storage.py lines 63-71): the sanitized name
with hyphens replaced by underscores, prefixed by `knowledge_`. -/
def get_collection_name (parts : List String) : String :=
  let sanitized := (sanitize_directory_name parts).toList.map
    fun c => if c = '-' then '_' else c
  String.mk ("knowledge_".toList ++ sanitized)

/-- `get_tracking_file_path` (storage.py lines 136-141): the tracking
file lives under `cache_dir / sanitize_directory_name(dir) / "tracking.json"`. -/
def get_tracking_file_path (cacheDir : String) (parts : List String) : String :=
  String.mk (cacheDir.toList ++ '/' :: (sanitize_directory_name parts).toList
    ++ "/tracking.json".toList)

/-! ## Tracking-file load (storage.py lines 144-171) -/

/-- A computation that either returns or raises (`.error` is an escaped
Python exception, carrying the exception kind). -/
inductive Fallible (α : Type) where
  | ok (val : α)
  | error (msg : String)
deriving DecidableEq, Repr

/-- What `load_tracking_file` can find on disk: no file; a file it may
not open (`PermissionError`); a file whose bytes are not valid UTF-8
(`json.load` then raises `UnicodeDecodeError`); a file whose text is not
valid JSON (`json.JSONDecodeError`); a file holding valid JSON whose top
level is not an object (`null`, a number, a list, a string — the
`"last_checked" not in data` test or the `data["last_checked"] = 0`
assignment then raises `TypeError`; the one exotic exception, a string
containing both key names as substrings, is returned as-is and is not
modelled separately); or a JSON object in which the `last_checked` and
`files` keys may each be missing. -/
inductive TrackingFileState where
  | absent
  | unreadable
  | undecodable
  | corrupt
  | nonObject
  | valid (last_checked : Option Int) (files : Option (List (String × String × Int)))
deriving DecidableEq, Repr

/-- `load_tracking_file` (storage.py lines 144-171).  The `except`
clause catches only `json.JSONDecodeError` and `PermissionError`: an
absent, unreadable or non-JSON file yields the empty record
`{"last_checked": 0, "files": {}}` and a JSON object has missing keys
filled with the same defaults, but undecodable bytes propagate
`UnicodeDecodeError` and a non-object top level propagates `TypeError`. -/
def load_tracking_file :
    TrackingFileState → Fallible (Int × List (String × String × Int))
  | .absent => .ok (0, [])
  | .unreadable => .ok (0, [])
  | .undecodable => .error "UnicodeDecodeError"
  | .corrupt => .ok (0, [])
  | .nonObject => .error "TypeError"
  | .valid lc fl => .ok (lc.getD 0, fl.getD [])

/-! ## Tracking-file save (storage.py lines 174-181)

`save_tracking_file` is embedded as the sequence of file-system
operations it performs, so that interruption mid-write can be stated:
executing a prefix of the operation list is a crash at that point. -/

inductive FsOp where
  /-- `open(path, "w")`: create/truncate the file to empty. -/
  | open_trunc (p : String)
  /-- `json.dump(data, f)` + close: the serialized data lands in `p`. -/
  | write_all (p : String) (data : String)
  /-- `os.replace(src, dst)`-style atomic rename (not used by the code;
  needed to state the claimed write-then-replace pattern). -/
  | rename_file (src dst : String)
deriving DecidableEq, Repr

/-- The operation sequence of `save_tracking_file`:
`with open(tracking_path, "w") as f: json.dump(data, f)` — a direct
truncate-then-write of the tracking file itself. -/
def save_tracking_file_ops (trackingPath : String) (serialized : String) : List FsOp :=
  [.open_trunc trackingPath, .write_all trackingPath serialized]

/-- Effect of one operation on the file system (path ↦ contents). -/
def apply_fs_op (st : String → Option String) : FsOp → (String → Option String)
  | .open_trunc p => fun q => if q = p then some "" else st q
  | .write_all p d => fun q => if q = p then some d else st q
  | .rename_file src dst =>
    fun q => if q = dst then st src else if q = src then none else st q

/-- File system after the first `k` operations (a crash after `k` steps). -/
def run_fs_steps (st : String → Option String) (ops : List FsOp) (k : Nat) :
    String → Option String :=
  (ops.take k).foldl apply_fs_op st

/-- The write-then-replace pattern the spec claims: all data is written
to a temporary path and the tracking file is only ever touched by an
atomic rename from that temporary path. -/
def uses_write_then_replace (ops : List FsOp) (trackingPath : String) : Prop :=
  (∃ tmp, tmp ≠ trackingPath ∧ FsOp.rename_file tmp trackingPath ∈ ops) ∧
    FsOp.open_trunc trackingPath ∉ ops

/-! ## Change detection and the incremental indexing pass
(indexer.py lines 33-48, 103-138, 165-455)

The filesystem is a snapshot: the list of recognized knowledge files
under the root, each with its MD5 hex digest and modification time
(`get_file_hash_and_mtime`).  The in-memory tracking record is the
parsed `tracking.json`: `last_checked` plus the map
`path ↦ (hash, mtime)`, modelled as a function (a Python dict).
The vector store's collection contents are the list of stored entities;
only the fields relevant to deletion and the invariant (`path`, chunk
`text`) are carried.

The external chunking pipeline (SimpleDirectoryReader /
MarkdownNodeParser / TokenTextSplitter plus the 50-character minimum
filter, indexer.py lines 267-362) is a parameter
`chunksFor : path → hash → List String` giving the chunk texts produced
for a file's current content (the content is identified by its
fingerprint), after the minimum-length filter. -/

structure FileInfo where
  path : String
  hash : String
  mtime : Int
deriving DecidableEq, Repr

structure TrackingRecord where
  last_checked : Int
  files : String → Option (String × Int)

structure StoredEntity where
  path : String
  text : String
deriving DecidableEq, Repr

/-- The per-file change test of `get_changed_files` (indexer.py lines
120-136): a file is changed when it is untracked, or its current
(hash, mtime) pair differs from the tracked pair. -/
def file_changed (tr : TrackingRecord) (f : FileInfo) : Bool :=
  match tr.files f.path with
  | none => true
  | some (h, m) => h ≠ f.hash || m ≠ f.mtime

/-- `get_changed_files` (indexer.py lines 103-138): the paths of the
files on disk that are new or changed, in discovery order.  Files listed
in the tracking map but absent from the disk snapshot are never visited,
so they are reported neither as changed nor as deleted. -/
def get_changed_files (fs : List FileInfo) (tr : TrackingRecord) : List String :=
  (fs.filter (file_changed tr)).map FileInfo.path

/-- `client.delete(collection_name, filter=f'path == "{file_path}"')`
(indexer.py line 237): remove every entity whose `path` field equals the
file's path. -/
def delete_by_path (store : List StoredEntity) (p : String) : List StoredEntity :=
  store.filter fun e => e.path ≠ p

/-- First file of the snapshot with the given path (paths are unique in
an `os.walk` listing, so this is the file itself). -/
def lookup_file (fs : List FileInfo) (p : String) : Option FileInfo :=
  fs.find? fun f => f.path = p

/-- The stored entities built for one file in this pass
(`build_entity_dict` sets `path` to the source file's path,
metadata.py lines 250-276). -/
def entities_for (chunksFor : String → String → List String) (f : FileInfo) :
    List StoredEntity :=
  (chunksFor f.path f.hash).map fun t => { path := f.path, text := t }

/-- All chunks of an incremental pass, in candidate order (indexer.py
lines 267-362): each changed file contributes its chunk texts. -/
def pass_chunks (chunksFor : String → String → List String)
    (fs : List FileInfo) (tr : TrackingRecord) : List StoredEntity :=
  (get_changed_files fs tr).flatMap fun p =>
    match lookup_file fs p with
    | some f => entities_for chunksFor f
    | none => []

/-- The tracking update of a completed pass (indexer.py lines 419-434):
`last_checked = now`, and every processed file's entry is set to its
current (hash, mtime); a file that became inaccessible keeps its old
entry (the `except` passes). -/
def update_tracking (tr : TrackingRecord) (fs : List FileInfo)
    (processed : List String) (now : Int) : TrackingRecord where
  last_checked := now
  files := fun q =>
    if q ∈ processed then
      match lookup_file fs q with
      | some f => some (f.hash, f.mtime)
      | none => tr.files q
    else tr.files q

/-- The JSON result record of `index_directory` (status, message,
processed file count, chunk count). -/
structure IndexResult where
  status : String
  message : String
  processed_files : Nat
  total_chunks : Nat
deriving DecidableEq, Repr

/-- Calls the pass makes against the external collaborators: delete
calls issued to the vector store, chunk texts sent to the embedding
function, insert calls issued to the vector store. -/
structure IndexEffects where
  delete_calls : Nat
  embedded_chunks : Nat
  insert_calls : Nat
deriving DecidableEq, Repr

structure IndexOutcome where
  store : List StoredEntity
  tracking : TrackingRecord
  result : IndexResult
  effects : IndexEffects

/-- `index_directory` in incremental mode (`force_reindex=False`,
indexer.py lines 217-450):

* no changed files — return "Already up to date" at once, touching
  nothing (lines 222-227);
* otherwise delete the stored entities of every changed file
  (lines 235-240), then build all chunks; if every chunk was filtered
  out, return "No content to index (all chunks empty)" *without
  updating the tracking record* (lines 364-373);
* otherwise embed the chunks, insert the entities in one call and
  update the tracking record (lines 375-450). -/
def index_directory_incremental (chunksFor : String → String → List String)
    (fs : List FileInfo) (tr : TrackingRecord) (store : List StoredEntity)
    (now : Int) : IndexOutcome :=
  if (get_changed_files fs tr).isEmpty then
    { store := store, tracking := tr,
      result := { status := "success", message := "Already up to date",
                  processed_files := 0, total_chunks := 0 },
      effects := { delete_calls := 0, embedded_chunks := 0, insert_calls := 0 } }
  else if (pass_chunks chunksFor fs tr).isEmpty then
    { store := (get_changed_files fs tr).foldl delete_by_path store,
      tracking := tr,
      result := { status := "success",
                  message := "No content to index (all chunks empty)",
                  processed_files := (get_changed_files fs tr).length,
                  total_chunks := 0 },
      effects := { delete_calls := (get_changed_files fs tr).length,
                   embedded_chunks := 0, insert_calls := 0 } }
  else
    { store := (get_changed_files fs tr).foldl delete_by_path store
        ++ pass_chunks chunksFor fs tr,
      tracking := update_tracking tr fs (get_changed_files fs tr) now,
      result := { status := "success", message := "Incremental update",
                  processed_files := (get_changed_files fs tr).length,
                  total_chunks := (pass_chunks chunksFor fs tr).length },
      effects := { delete_calls := (get_changed_files fs tr).length,
                   embedded_chunks := (pass_chunks chunksFor fs tr).length,
                   insert_calls := 1 } }

/-- The §3 invariant: every file in the tracking map has, in the vector
store, exactly the entities derived from the content it was last indexed
with (the content is identified by the tracked fingerprint). -/
def store_inv (chunksFor : String → String → List String)
    (tr : TrackingRecord) (store : List StoredEntity) : Prop :=
  ∀ p h m, tr.files p = some (h, m) →
    store.filter (fun e => e.path = p) =
      (chunksFor p h).map fun t => { path := p, text := t }

/-! ## Metadata extraction (models.py, parsers.py, metadata.py)

Reading a file can fail three ways that the parsers distinguish in their
`except` clauses: `FileNotFoundError`, `PermissionError`,
`UnicodeDecodeError`.  The external parsing libraries (`ast.parse`,
`json.load` on a decoded string, `frontmatter.load`) are parameters
returning `Option`: `none` is the library raising (`SyntaxError`,
`json.JSONDecodeError`, any front-matter parse error).  An extractor
returns `Fallible DocumentMetadata`: `.error` is an exception
escaping the extractor's own boundary. -/

inductive ReadResult where
  | missing
  | permissionDenied
  | undecodable
  | content (s : String)
deriving DecidableEq, Repr

/-- A YAML front-matter value (string, number, list of strings, null). -/
inductive FmValue where
  | str (s : String)
  | num (q : ℚ)
  | strList (l : List String)
  | null
deriving DecidableEq, Repr

/-- `FileType` (models.py lines 11-40). -/
inductive FileType where
  | markdown
  | python
  | jupyter
deriving DecidableEq, Repr

/-- `FileType.from_extension` (models.py lines 20-40): strip leading
dots, lowercase, look up among `md`, `py`, `ipynb` plus the Cython alias
`pyx ↦ python`. -/
def FileType.from_extension (ext : String) : Option FileType :=
  let e := String.mk ((ext.toList.dropWhile (· = '.')).map Char.toLower)
  if e = "md" then some .markdown
  else if e = "py" then some .python
  else if e = "pyx" then some .python
  else if e = "ipynb" then some .jupyter
  else none

/-- `DocumentMetadata` (models.py lines 43-84).  The pydantic
`__init__` turns `tags=None` and `custom=None` into `[]` / `{}`, so
those two fields are non-optional with those defaults.  Python floats
are modelled as rationals. -/
structure DocumentMetadata where
  file_type : Option String := none
  tags : List String := []
  created : Option String := none
  author : Option String := none
  type_field : Option String := none
  strategy : Option String := none
  sharpe : Option ℚ := none
  cagr : Option ℚ := none
  drawdown : Option ℚ := none
  module_name : Option String := none
  classes : Option (List String) := none
  functions : Option (List String) := none
  imports : Option (List String) := none
  has_main : Option Bool := none
  kernel_spec : Option String := none
  cell_count : Option Nat := none
  code_cell_count : Option Nat := none
  markdown_cell_count : Option Nat := none
  custom : List (String × FmValue) := []
deriving DecidableEq, Repr

/-- `Path(p).parts[-1]` as characters: the file name. -/
def path_basename (p : String) : List Char :=
  ((splitOnChar '/' p.toList).filter (· ≠ [])).getLastD []

/-- `Path(p).suffix.lstrip(".")`: the final extension without its dot
(empty for extension-less and dot-leading names). -/
def path_ext (p : String) : String :=
  match splitOnChar '.' (path_basename p) with
  | [] => ""
  | [_] => ""
  | g :: gs =>
    if g = [] ∧ gs.length = 1 then ""
    else String.mk (gs.getLastD [])

/-- `Path(p).stem`: the file name without its final extension. -/
def path_stem (p : String) : String :=
  match splitOnChar '.' (path_basename p) with
  | [] => ""
  | [g] => String.mk g
  | g :: gs =>
    if g = [] ∧ gs.length = 1 then String.mk (path_basename p)
    else String.mk (intercalateChar '.' ((g :: gs).dropLast))

/-- What `ast.parse` + the `ast.walk` loop of
`PythonParser.extract_metadata` (parsers.py lines 43-77) produce:
module docstring, class names, top-level function names, imported module
names, and whether an `if __name__ == "__main__"` guard exists. -/
structure PyModule where
  docstring : Option String
  classes : List String
  functions : List String
  imports : List String
  has_main : Bool
deriving DecidableEq, Repr

/-- `if module_docstring:` — Python truthiness of the docstring. -/
def nonempty_docstring : Option String → Option String
  | some d => if d = "" then none else some d
  | none => none

/-- The docstring hashtags of `PythonParser.extract_metadata`
(parsers.py lines 79-83): the raw `re.findall` matches, deduplicated,
with **no** validity filtering (no hex-color, heading-marker or length
rule). -/
def python_docstring_tags (docstring : Option String) : List String :=
  match nonempty_docstring docstring with
  | some d => (find_hashtag_matches d).dedup
  | none => []

/-- `PythonParser.extract_metadata` (parsers.py lines 18-97).  Only
`FileNotFoundError` and `UnicodeDecodeError` are caught at the read, and
`SyntaxError` at the parse; a `PermissionError` escapes. -/
def PythonParser_extract_metadata (pyParse : String → Option PyModule)
    (file_path : String) : ReadResult → Fallible DocumentMetadata
  | .missing => .ok { file_type := some "py" }
  | .undecodable => .ok { file_type := some "py" }
  | .permissionDenied => .error "PermissionError"
  | .content src =>
    match pyParse src with
    | none => .ok { file_type := some "py" }
    | some m =>
      .ok { file_type := some "py"
            module_name := some (path_stem file_path)
            classes := if m.classes.isEmpty then none else some m.classes
            functions := if m.functions.isEmpty then none else some m.functions
            imports := if m.imports.isEmpty then none else some m.imports.dedup
            has_main := if m.has_main then some true else none
            tags := python_docstring_tags m.docstring
            custom :=
              match nonempty_docstring m.docstring with
              | some d => [("docstring", FmValue.str d)]
              | none => [] }

/-- One notebook cell: its type and its source, normalized to a list of
lines (`"".join` is applied when extracting; a plain-string source is
the one-element list). -/
structure NbCell where
  cell_type : String
  source : List String
deriving DecidableEq, Repr

/-- What `json.load` yields from a notebook, projected to the fields
the extractor reads: `metadata.kernelspec.name` and the cells. -/
structure Notebook where
  kernel : Option String
  cells : List NbCell
deriving DecidableEq, Repr

/-- `"".join(source)`. -/
def join_sources (l : List String) : String :=
  String.mk (l.flatMap String.toList)

/-- `JupyterParser.extract_metadata` (parsers.py lines 124-179).  Only
`FileNotFoundError` and `json.JSONDecodeError` are caught; a
`PermissionError` or `UnicodeDecodeError` escapes. -/
def JupyterParser_extract_metadata (jsonParse : String → Option Notebook) :
    ReadResult → Fallible DocumentMetadata
  | .missing => .ok { file_type := some "ipynb" }
  | .permissionDenied => .error "PermissionError"
  | .undecodable => .error "UnicodeDecodeError"
  | .content src =>
    match jsonParse src with
    | none => .ok { file_type := some "ipynb" }
    | some nb =>
      .ok { file_type := some "ipynb"
            kernel_spec := nb.kernel
            cell_count := some nb.cells.length
            code_cell_count := some (nb.cells.countP (·.cell_type = "code"))
            markdown_cell_count := some (nb.cells.countP (·.cell_type = "markdown"))
            tags := ((nb.cells.filter (·.cell_type = "markdown")).flatMap
              fun c => extract_inline_hashtags (join_sources c.source)).dedup }

/-- `parse_frontmatter` (metadata.py lines 95-119): unreadable files
give `({}, "")`; a front-matter parse failure falls back to re-reading
the file and returning its full content with empty front matter.  Total:
every failure is absorbed. -/
def parse_frontmatter
    (fmParse : String → Option (List (String × FmValue) × String)) :
    ReadResult → List (String × FmValue) × String
  | .missing => ([], "")
  | .permissionDenied => ([], "")
  | .undecodable => ([], "")
  | .content s =>
    match fmParse s with
    | some (fm, body) => (fm, body)
    | none => ([], s)

/-- `dict.get`. -/
def fm_get (fm : List (String × FmValue)) (key : String) : Option FmValue :=
  (fm.find? (·.1 = key)).map (·.2)

/-- Python truthiness of a front-matter value. -/
def fmFalsy : FmValue → Bool
  | .str s => s = ""
  | .num q => q = 0
  | .strList l => l.isEmpty
  | .null => true

/-- Python `x or y`, where `none` (an absent key) is falsy. -/
def pyOr (a b : Option FmValue) : Option FmValue :=
  match a with
  | some v => if fmFalsy v then b else some v
  | none => b

/-- Python `str()` on a front-matter value. -/
def fmValueToStr : FmValue → String
  | .str s => s
  | .num q => toString q
  | .strList l => toString l
  | .null => "None"

/-- `str.strip()`. -/
def trimStr (s : String) : String :=
  String.mk (((s.toList.dropWhile isPySpace).reverse.dropWhile isPySpace).reverse)

/-- Accumulate digits into a natural number. -/
def digitsToNat (cs : List Char) : Nat :=
  cs.foldl (fun n c => 10 * n + (c.toNat - '0'.toNat)) 0

/-- Unsigned decimal literal: digits with an optional fractional part. -/
def parse_decimal_abs (cs : List Char) : Option ℚ :=
  match splitOnChar '.' cs with
  | [ip] =>
    if ip ≠ [] ∧ ip.all Char.isDigit then some (digitsToNat ip) else none
  | [ip, fp] =>
    if (ip ≠ [] ∨ fp ≠ []) ∧ ip.all Char.isDigit ∧ fp.all Char.isDigit then
      some ((digitsToNat ip : ℚ) + (digitsToNat fp : ℚ) / (10 : ℚ) ^ fp.length)
    else none
  | _ => none

/-- Python `float(s)` on the decimal literals front matter uses
(optional surrounding whitespace, optional sign, digits with an optional
fractional part); anything else is a `ValueError`, i.e. `none`. -/
def parse_decimal (s : String) : Option ℚ :=
  let cs := (s.toList.dropWhile isPySpace).reverse.dropWhile isPySpace
  let cs := cs.reverse
  match cs with
  | '-' :: rest => (parse_decimal_abs rest).map (fun q => -q)
  | '+' :: rest => parse_decimal_abs rest
  | rest => parse_decimal_abs rest

/-- `parse_float_safe` (metadata.py lines 82-92): `None`, unparseable
strings and non-numeric values yield `none`, never an error. -/
def parse_float_safe : Option FmValue → Option ℚ
  | some (.num q) => some q
  | some (.str s) => parse_decimal s
  | some (.strList _) => none
  | some .null => none
  | none => none

/-- `fm_data.get("tags", [])` with the string form split on commas and
stripped (metadata.py lines 170-175); any other shape becomes `[]`. -/
def md_fm_tags (fm : List (String × FmValue)) : List String :=
  match fm_get fm "tags" with
  | some (.strList l) => l
  | some (.str s) => (splitOnChar ',' s.toList).map fun g => trimStr (String.mk g)
  | _ => []

/-- Front-matter tag normalization (metadata.py lines 177-184): strip,
prefix `#` when missing, drop empties. -/
def md_normalize_tags (tags : List String) : List String :=
  tags.foldr (fun tag acc =>
    let t := trimStr tag
    let t := if t ≠ "" ∧ t.toList.head? ≠ some '#' then String.mk ('#' :: t.toList)
             else t
    if t ≠ "" then t :: acc else acc) []

/-- Front-matter tag filtering (metadata.py lines 186-205): the same
length / hex-color / heading-marker rules as the inline tags. -/
def md_filter_fm_tags (tags : List String) : List String :=
  tags.filter fun tag =>
    ¬(tag.toList.length ≤ 2) && ¬is_hex_color tag && ¬is_heading_marker tag

/-- Stable insert: `x` goes before the first element `y` with `r x y`
(ties keep the earlier element first), modelling Python's stable sort. -/
def insert_by (r : α → α → Bool) (x : α) : List α → List α
  | [] => [x]
  | y :: ys => if r x y then x :: y :: ys else y :: insert_by r x ys

/-- Stable insertion sort: the semantics of Python `list.sort(key=...)`
(a stable sort; the implementation difference is unobservable). -/
def sort_by (r : α → α → Bool) : List α → List α
  | [] => []
  | x :: xs => insert_by r x (sort_by r xs)

/-- `all_tags.sort()`: ascending string sort. -/
def sortStrings (l : List String) : List String :=
  sort_by (fun a b => a.toList ≤ b.toList) l

/-- The front-matter keys that have dedicated fields (metadata.py lines
230-242); everything else goes to `custom`. -/
def md_skip_fields : List String :=
  ["tags", "Created", "created", "Author", "author", "Type", "type",
   "strategy", "sharpe", "cagr", "drawdown"]

/-- The record `_extract_markdown_metadata` builds from the parsed
front matter and body (metadata.py lines 164-247). -/
def markdown_metadata_of (fm : List (String × FmValue)) (content : String) :
    DocumentMetadata :=
  let inline_tags := extract_inline_hashtags content
  let filtered_fm_tags := md_filter_fm_tags (md_normalize_tags (md_fm_tags fm))
  let all_tags := sortStrings ((filtered_fm_tags ++ inline_tags).dedup)
  let type_value := pyOr (fm_get fm "Type") (fm_get fm "type")
  let strategy_str :=
    fmValueToStr ((pyOr (fm_get fm "strategy") (some (.str ""))).getD (.str ""))
  { file_type := some "md"
    tags := all_tags
    created := some (fmValueToStr
      ((pyOr (fm_get fm "Created")
        (pyOr (fm_get fm "created") (some (.str "")))).getD (.str "")))
    author := some (fmValueToStr
      ((pyOr (fm_get fm "Author")
        (pyOr (fm_get fm "author") (some (.str "")))).getD (.str "")))
    type_field :=
      match type_value with
      | some v => if fmFalsy v then none else some (fmValueToStr v)
      | none => none
    strategy := if strategy_str = "" then none else some strategy_str
    sharpe := parse_float_safe (fm_get fm "sharpe")
    cagr := parse_float_safe (fm_get fm "cagr")
    drawdown := parse_float_safe (fm_get fm "drawdown")
    custom := fm.filter fun kv => ¬md_skip_fields.contains kv.1 }

/-- `_extract_markdown_metadata` (metadata.py lines 152-247). -/
def markdown_extract_metadata
    (fmParse : String → Option (List (String × FmValue) × String))
    (file : ReadResult) : DocumentMetadata :=
  markdown_metadata_of (parse_frontmatter fmParse file).1
    (parse_frontmatter fmParse file).2

/-- `extract_metadata` (metadata.py lines 122-149): dispatch on the file
extension; unrecognized extensions give an empty `DocumentMetadata()`. -/
def extract_metadata (pyParse : String → Option PyModule)
    (jsonParse : String → Option Notebook)
    (fmParse : String → Option (List (String × FmValue) × String))
    (file_path : String) (file : ReadResult) : Fallible DocumentMetadata :=
  match FileType.from_extension (path_ext file_path) with
  | some .python => PythonParser_extract_metadata pyParse file_path file
  | some .jupyter => JupyterParser_extract_metadata jsonParse file
  | some .markdown => .ok (markdown_extract_metadata fmParse file)
  | none => .ok {}

/-! ## Aggregate multi-root search (server.py lines 371-432)

`search_documents` for one root is an external call from the aggregate
path's point of view; it is a parameter returning either the parsed
per-root results (status `success`) or an error (a raised exception or a
non-success status), both of which the aggregate loop treats the same:
that root contributes nothing.  Scores are rationals. -/

structure RawResult where
  text : String
  path : String
  score : ℚ
deriving DecidableEq, Repr

/-- A per-root result after the aggregate loop sets
`r['knowledge_base'] = kb_name` (server.py line 414). -/
structure TaggedResult where
  result : RawResult
  knowledge_base : String
deriving DecidableEq, Repr

/-- `knowledge_search` with `directory=None` (server.py lines 398-428):
search every path of every registered knowledge base, tag the results
with the knowledge-base name, swallow per-root failures, concatenate,
sort by score descending (Python's stable `list.sort(reverse=True)`,
modelled by a stable merge sort on the opposite relation) and truncate
to `limit`. -/
def knowledge_search_aggregate (searchFn : String → Fallible (List RawResult))
    (kbs : List (String × List String)) (lim : Nat) :
    Fallible (List TaggedResult) :=
  if kbs.isEmpty then .error "No knowledge bases registered"
  else
    let all_results := kbs.flatMap fun kb => kb.2.flatMap fun p =>
      match searchFn p with
      | .ok rs => rs.map fun r => { result := r, knowledge_base := kb.1 }
      | .error _ => []
    let sorted := sort_by (fun a b => b.result.score ≤ a.result.score) all_results
    .ok (sorted.take lim)

/-! ## Concrete instances used by the theorems below -/

/-- The spec's §8 tag-validity test input. -/
def c4_input : String :=
  "#backtest #qubx <font color='#ff0000'>x</font> #h1 #ab"

/-- A module docstring containing only tokens the Prose validity rule
rejects. -/
def c10_docstring : String := "Utility helpers #fff #h1 #a end"

/-- One tracked markdown file whose content has changed (tracked
fingerprint `h1`, on-disk fingerprint `h2`). -/
def c1_fs : List FileInfo := [{ path := "/kb/doc.md", hash := "h2", mtime := 6 }]

def c1_tr : TrackingRecord where
  last_checked := 50
  files := fun q => if q = "/kb/doc.md" then some ("h1", 5) else none

/-- The old content produced one chunk; the new content is short, so
every chunk is dropped by the 50-character minimum filter. -/
def c1_chunksFor : String → String → List String :=
  fun _ h => if h = "h1" then ["chunk of the old document version"] else []

def c1_store : List StoredEntity :=
  [{ path := "/kb/doc.md", text := "chunk of the old document version" }]

def c1_outcome : IndexOutcome :=
  index_directory_incremental c1_chunksFor c1_fs c1_tr c1_store 99

/-- A root holding one new file all of whose chunks are below the
50-character minimum. -/
def c2_fs : List FileInfo := [{ path := "/kb/tiny.md", hash := "h1", mtime := 100 }]

def c2_tr0 : TrackingRecord where
  last_checked := 0
  files := fun _ => none

def c2_chunksFor : String → String → List String := fun _ _ => []

def c2_run1 : IndexOutcome :=
  index_directory_incremental c2_chunksFor c2_fs c2_tr0 [] 10

def c2_run2 : IndexOutcome :=
  index_directory_incremental c2_chunksFor c2_fs c2_run1.tracking c2_run1.store 20

/-- A one-file root whose chunking succeeds, for instantiating the
hypotheses of the C1/C2 theorems. -/
def w_fs : List FileInfo := [{ path := "/kb/doc.md", hash := "h2", mtime := 6 }]

def w_tr : TrackingRecord where
  last_checked := 0
  files := fun _ => none

def w_chunksFor : String → String → List String :=
  fun _ _ => ["a chunk of text long enough to be kept by the filter"]

def c7_path : String := "/home/u/.aix/rag_cache/docs-research/tracking.json"

def c7_old : String := "old tracking file contents"

def c7_new : String := "new tracking file contents"

def c7_init : String → Option String :=
  fun q => if q = c7_path then some c7_old else none

def ex_hit1 : RawResult := { text := "hit one", path := "/r1/a.md", score := Rat.mk' 9 10 }

def ex_hit2 : RawResult := { text := "hit two", path := "/r2/b.md", score := Rat.mk' 3 5 }

/-- Two registered knowledge bases with one root each; searching `/r1`
scores 0.9, searching `/r2` scores 0.6. -/
def ex_kbs : List (String × List String) := [("kb1", ["/r1"]), ("kb2", ["/r2"])]

def ex_searchFn : String → Fallible (List RawResult) := fun p =>
  if p = "/r1" then .ok [ex_hit1]
  else if p = "/r2" then .ok [ex_hit2]
  else .error "collection not found"

/-- The same registry with the first root's search raising. -/
def ex_searchFn_fail : String → Fallible (List RawResult) := fun p =>
  if p = "/r1" then .error "search failed" else ex_searchFn p

/-! ## Lemmas about the stable sort -/

theorem mem_insert_by {α : Type} {r : α → α → Bool} {x a : α} {l : List α} :
    a ∈ insert_by r x l ↔ a = x ∨ a ∈ l := by
  induction l with
  | nil => simp [insert_by]
  | cons y ys ih =>
    by_cases h : r x y
    · simp [insert_by, h]
    · simp [insert_by, h, ih]
      tauto

theorem mem_sort_by {α : Type} {r : α → α → Bool} {a : α} {l : List α} :
    a ∈ sort_by r l ↔ a ∈ l := by
  induction l with
  | nil => simp [sort_by]
  | cons x xs ih => simp [sort_by, mem_insert_by, ih]

theorem pairwise_insert_by {α : Type} {r : α → α → Bool}
    (htot : ∀ a b, r a b ∨ r b a)
    (htrans : ∀ a b c, r a b → r b c → r a c)
    {x : α} {l : List α} (hl : l.Pairwise fun a b => r a b) :
    (insert_by r x l).Pairwise fun a b => r a b := by
  induction l with
  | nil => simp [insert_by]
  | cons y ys ih =>
    rcases List.pairwise_cons.mp hl with ⟨hy, hys⟩
    by_cases h : r x y
    · simp only [insert_by, if_pos h]
      refine List.pairwise_cons.mpr ⟨?_, hl⟩
      intro z hz
      rcases List.mem_cons.mp hz with hz | hz
      · exact hz ▸ h
      · exact htrans x y z h (hy z hz)
    · simp only [insert_by, if_neg h]
      refine List.pairwise_cons.mpr ⟨?_, ih hys⟩
      intro z hz
      rcases mem_insert_by.mp hz with hz | hz
      · subst hz
        rcases htot z y with hzy | hyz
        · exact absurd hzy h
        · exact hyz
      · exact hy z hz

theorem pairwise_sort_by {α : Type} {r : α → α → Bool}
    (htot : ∀ a b, r a b ∨ r b a)
    (htrans : ∀ a b c, r a b → r b c → r a c)
    (l : List α) : (sort_by r l).Pairwise fun a b => r a b := by
  induction l with
  | nil => simp [sort_by]
  | cons x xs ih => exact pairwise_insert_by htot htrans ih

/-! ## C6 — corrupt tracking data: reset for the caught kinds, raise for the rest -/

/-- Claim C6 counterexample: `load_tracking_file` *can* raise, so
corrupt tracking data does not always reset indexing state — the
`except` clause (storage.py line 170) catches only `json.JSONDecodeError`
and `PermissionError`.  A tracking file whose bytes are not valid UTF-8
propagates `UnicodeDecodeError` out of `json.load`, and a file holding
valid JSON whose top level is not an object propagates `TypeError` from
the key tests / assignments; neither returns the empty record. -/
theorem load_tracking_file_raises_counterexample :
    load_tracking_file .undecodable = .error "UnicodeDecodeError" ∧
    load_tracking_file .nonObject = .error "TypeError" ∧
    load_tracking_file .undecodable ≠ .ok (0, []) ∧
    load_tracking_file .nonObject ≠ .ok (0, []) :=
  ⟨rfl, rfl, by decide, by decide⟩

/-- Claim C6 (amended): loading returns the empty record
(`last_checked = 0`, empty files map) without raising when the tracking
file is absent, unreadable (`PermissionError`) or not valid JSON
(`json.JSONDecodeError`) — exactly the failure kinds the `except` clause
names.  Forced by the counterexample, the remaining corrupt forms — 
undecodable bytes and a valid-JSON non-object top level — abort with an
uncaught exception instead of resetting. -/
theorem load_tracking_file_resets :
    ∀ s : TrackingFileState,
      (s = .absent ∨ s = .unreadable ∨ s = .corrupt) →
      load_tracking_file s = .ok (0, []) := by
  intro s h
  rcases h with h | h | h <;> subst h <;> rfl

theorem load_tracking_file_resets_witness :
    load_tracking_file .corrupt = .ok (0, []) :=
  load_tracking_file_resets .corrupt (Or.inr (Or.inr rfl))

/-! ## C7 — `save_tracking_file` does not use write-then-replace -/

/-- Claim C7 counterexample: the operation sequence of
`save_tracking_file` contains no rename through a temporary location,
and executing only its first operation (a crash between the truncating
`open(path, "w")` and the write) leaves the previously non-empty
tracking file empty, i.e. silently truncated. -/
theorem save_tracking_file_counterexample :
    ¬ uses_write_then_replace (save_tracking_file_ops c7_path c7_new) c7_path ∧
    c7_init c7_path = some c7_old ∧ c7_old ≠ "" ∧
    run_fs_steps c7_init (save_tracking_file_ops c7_path c7_new) 1 c7_path
      = some "" := by
  refine ⟨?_, by decide, by decide, by decide⟩
  rintro ⟨⟨tmp, -, hmem⟩, -⟩
  simp [save_tracking_file_ops] at hmem

/-- Claim C7 (amended): `save_tracking_file` writes the serialized
record directly into the tracking file — a truncating open followed by
one write, with no temporary file and no rename.  A complete run leaves
exactly the serialized data, but an interruption between the truncation
and the write leaves the file empty (which `load_tracking_file` later
recovers as a corrupt file, resetting to the empty record). -/
theorem save_tracking_file_direct_write (path data : String)
    (st : String → Option String) :
    run_fs_steps st (save_tracking_file_ops path data) 2 path = some data ∧
    run_fs_steps st (save_tracking_file_ops path data) 1 path = some "" ∧
    (save_tracking_file_ops path data).all
      (fun op => match op with | .rename_file _ _ => false | _ => true) = true := by
  refine ⟨?_, ?_, rfl⟩
  · simp [run_fs_steps, save_tracking_file_ops, apply_fs_op]
  · simp [run_fs_steps, save_tracking_file_ops, apply_fs_op]

/-! ## C9 — distinct roots sharing their last two components collide -/

/-- Claim C9: two distinct absolute root paths whose final two
components agree are mapped to one and the same slug, hence the same
vector collection name and the same cache/tracking location —
`sanitize_directory_name` only looks at the last two path components. -/
theorem collection_name_collision :
    ("/a/docs/research" : String) ≠ "/b/docs/research" ∧
    sanitize_directory_name (path_parts "/a/docs/research") = "docs-research" ∧
    sanitize_directory_name (path_parts "/b/docs/research") = "docs-research" ∧
    get_collection_name (path_parts "/a/docs/research") =
      get_collection_name (path_parts "/b/docs/research") ∧
    get_collection_name (path_parts "/a/docs/research") =
      "knowledge_docs_research" ∧
    get_tracking_file_path "/home/u/.aix/rag_cache" (path_parts "/a/docs/research") =
      get_tracking_file_path "/home/u/.aix/rag_cache" (path_parts "/b/docs/research") := by
  decide

/-! ## C4 — the §8 tag-validity example -/

/-- Claim C4 counterexample: on the spec's input the accepted tag set is
**not** `{#backtest, #qubx}` — `#ab` is also accepted, because
`len("#ab") = 3 > 2` (the length rule counts the `#`), `ab` is hex of
length 2 (not in {3,4,6,8}) and `ab` is no heading marker. -/
theorem extract_inline_hashtags_c4_counterexample :
    (extract_inline_hashtags c4_input).toFinset ≠ {"#backtest", "#qubx"} ∧
    "#ab" ∈ extract_inline_hashtags c4_input ∧
    is_valid_tag "#ab" = true := by decide

/-- Claim C4 (amended): on the spec's input the accepted tag set is
exactly `{#backtest, #qubx, #ab}`: the hex-color token `#ff0000` and
the heading marker `#h1` are rejected, but `#ab` is kept — the length
rule only rejects tokens of total length ≤ 2 such as `#a`. -/
theorem extract_inline_hashtags_c4_amended :
    (extract_inline_hashtags c4_input).toFinset = {"#backtest", "#qubx", "#ab"} ∧
    "#ab".toList.length = 3 ∧ is_valid_tag "#ab" = true ∧
    is_valid_tag "#a" = false ∧
    is_hex_color "#ff0000" = true ∧ "#ff0000" ∉ extract_inline_hashtags c4_input ∧
    is_heading_marker "#h1" = true ∧ "#h1" ∉ extract_inline_hashtags c4_input := by
  decide

/-! ## C10 — Python docstring hashtags are not validity-filtered -/

/-- Claim C10: `PythonParser.extract_metadata` takes every
`#[a-zA-Z][a-zA-Z0-9_-]*` match of the module docstring, unfiltered:
every raw match appears in the tag list (first conjunct), the parser's
record carries exactly those tags (second conjunct), and on a concrete
docstring the hex color `#fff`, heading marker `#h1` and two-character
`#a` — all rejected by the Prose validity rule, and absent from the
Prose extraction of the same text — are present. -/
theorem python_docstring_tags_unfiltered :
    (∀ (s t : String), t ∈ find_hashtag_matches s →
      t ∈ python_docstring_tags (some s)) ∧
    (∀ (pyParse : String → Option PyModule) (file_path src : String) (m : PyModule),
      pyParse src = some m →
      ∃ md, PythonParser_extract_metadata pyParse file_path (.content src) = .ok md ∧
        md.tags = python_docstring_tags m.docstring) ∧
    "#fff" ∈ python_docstring_tags (some c10_docstring) ∧
    "#h1" ∈ python_docstring_tags (some c10_docstring) ∧
    "#a" ∈ python_docstring_tags (some c10_docstring) ∧
    is_valid_tag "#fff" = false ∧ is_valid_tag "#h1" = false ∧
    is_valid_tag "#a" = false ∧
    extract_inline_hashtags c10_docstring = [] := by
  refine ⟨?_, ?_, by decide, by decide, by decide, by decide, by decide,
    by decide, by decide⟩
  · intro s t ht
    unfold python_docstring_tags nonempty_docstring
    by_cases hs : s = ""
    · subst hs
      have hnil : find_hashtag_matches "" = [] := rfl
      rw [hnil] at ht
      exact (List.not_mem_nil t ht).elim
    · simpa [hs, List.mem_dedup] using ht
  · intro pyParse file_path src m hm
    exact ⟨{ file_type := some "py",
             module_name := some (path_stem file_path),
             classes := if m.classes.isEmpty then none else some m.classes,
             functions := if m.functions.isEmpty then none else some m.functions,
             imports := if m.imports.isEmpty then none else some m.imports.dedup,
             has_main := if m.has_main then some true else none,
             tags := python_docstring_tags m.docstring,
             custom := match nonempty_docstring m.docstring with
               | some d => [("docstring", FmValue.str d)]
               | none => [] },
           by simp [PythonParser_extract_metadata, hm], rfl⟩

theorem python_docstring_tags_unfiltered_witness :
    "#fff" ∈ python_docstring_tags (some c10_docstring) :=
  python_docstring_tags_unfiltered.1 c10_docstring "#fff" (by decide)

/-! ## C1, C2, C3 — change detection and the incremental pass -/

theorem filter_delete_self (s : List StoredEntity) (p : String) :
    (delete_by_path s p).filter (fun e => e.path = p) = [] := by
  refine List.filter_eq_nil_iff.mpr ?_
  intro e he
  have h2 := (List.mem_filter.mp he).2
  simp only [decide_eq_true_eq] at h2 ⊢
  exact h2

theorem filter_delete_other (s : List StoredEntity) {p q : String} (hpq : p ≠ q) :
    (delete_by_path s q).filter (fun e => e.path = p) =
      s.filter (fun e => e.path = p) := by
  unfold delete_by_path
  rw [List.filter_filter]
  refine List.filter_congr ?_
  intro e _
  by_cases hep : e.path = p
  · have heq : ¬(e.path = q) := fun h => hpq (by rw [← hep, h])
    simp [hep, heq]
    exact hpq
  · simp [hep]

theorem filter_foldl_delete (p : String) :
    ∀ (ps : List String) (s : List StoredEntity),
    ((ps.foldl delete_by_path s).filter (fun e => e.path = p)) =
      if p ∈ ps then [] else s.filter (fun e => e.path = p) := by
  intro ps
  induction ps with
  | nil => intro s; simp
  | cons q qs ih =>
    intro s
    rw [List.foldl_cons, ih (delete_by_path s q)]
    by_cases hq : p ∈ qs
    · simp [hq]
    · by_cases hpq : p = q
      · subst hpq
        simp [hq, filter_delete_self]
      · simp [hq, hpq, filter_delete_other s hpq]

theorem entities_for_path (chunksFor : String → String → List String)
    (f : FileInfo) : ∀ e ∈ entities_for chunksFor f, e.path = f.path := by
  intro e he
  simp only [entities_for, List.mem_map] at he
  obtain ⟨t, -, rfl⟩ := he
  rfl

theorem filter_flatMap_paths (g : String → List StoredEntity)
    (hg : ∀ q e, e ∈ g q → e.path = q) (p : String) :
    ∀ (ps : List String), ps.Nodup →
    ((ps.flatMap g).filter (fun e => e.path = p)) =
      if p ∈ ps then g p else [] := by
  intro ps
  induction ps with
  | nil => intro _; simp
  | cons q qs ih =>
    intro hnd
    rcases List.nodup_cons.mp hnd with ⟨hq, hqs⟩
    rw [List.flatMap_cons, List.filter_append, ih hqs]
    by_cases hpq : p = q
    · subst hpq
      rw [if_neg hq, if_pos (List.mem_cons_self p qs)]
      rw [List.append_nil]
      refine List.filter_eq_self.mpr ?_
      intro e he
      simp only [decide_eq_true_eq]
      exact hg p e he
    · have h1 : (g q).filter (fun e => e.path = p) = [] := by
        refine List.filter_eq_nil_iff.mpr ?_
        intro e he
        simp only [decide_eq_true_eq]
        rw [hg q e he]
        exact fun h => hpq h.symm
      rw [h1, List.nil_append]
      by_cases hp : p ∈ qs
      · rw [if_pos hp, if_pos (List.mem_cons_of_mem q hp)]
      · rw [if_neg hp, if_neg (by simp [hpq, hp])]

theorem changed_nodup {fs : List FileInfo} {tr : TrackingRecord}
    (hnd : (fs.map FileInfo.path).Nodup) :
    (get_changed_files fs tr).Nodup :=
  ((List.filter_sublist fs).map FileInfo.path).nodup hnd

theorem lookup_file_mem {fs : List FileInfo} {f : FileInfo}
    (hnd : (fs.map FileInfo.path).Nodup) (hf : f ∈ fs) :
    lookup_file fs f.path = some f := by
  induction fs with
  | nil => cases hf
  | cons g gs ih =>
    rcases List.nodup_cons.mp hnd with ⟨hg, hgs⟩
    rcases List.mem_cons.mp hf with rfl | hf2
    · simp [lookup_file, List.find?_cons]
    · have hne : ¬(g.path = f.path) := by
        intro h
        exact hg (h ▸ List.mem_map_of_mem FileInfo.path hf2)
      simpa [lookup_file, List.find?_cons, hne] using ih hgs hf2

theorem mem_changed_iff {fs : List FileInfo} {tr : TrackingRecord} {p : String} :
    p ∈ get_changed_files fs tr ↔
      ∃ f, f ∈ fs ∧ f.path = p ∧ file_changed tr f := by
  simp only [get_changed_files, List.mem_map, List.mem_filter]
  constructor
  · rintro ⟨f, ⟨hf, hc⟩, rfl⟩
    exact ⟨f, hf, rfl, hc⟩
  · rintro ⟨f, hf, rfl, hc⟩
    exact ⟨f, ⟨hf, hc⟩, rfl⟩

theorem not_changed_spec {fs : List FileInfo} {tr : TrackingRecord} {f : FileInfo}
    (hf : f ∈ fs) (h : f.path ∉ get_changed_files fs tr) :
    tr.files f.path = some (f.hash, f.mtime) := by
  have hc : ¬(file_changed tr f = true) :=
    fun hc => h (mem_changed_iff.mpr ⟨f, hf, rfl, hc⟩)
  unfold file_changed at hc
  rcases htr : tr.files f.path with - | ⟨h1, m1⟩
  · rw [htr] at hc
    exact absurd rfl hc
  · rw [htr] at hc
    simp only [Bool.or_eq_true, decide_eq_true_eq, not_or, not_not] at hc
    rw [hc.1, hc.2]

theorem pass_chunks_filter (chunksFor : String → String → List String)
    (fs : List FileInfo) (tr : TrackingRecord)
    (hnd : (fs.map FileInfo.path).Nodup) (p : String) :
    (pass_chunks chunksFor fs tr).filter (fun e => e.path = p) =
      if p ∈ get_changed_files fs tr then
        (match lookup_file fs p with
          | some f => entities_for chunksFor f
          | none => []) else [] := by
  refine filter_flatMap_paths _ ?_ p (get_changed_files fs tr) (changed_nodup hnd)
  intro q e he
  rcases hlk : lookup_file fs q with - | f
  · rw [hlk] at he
    cases he
  · rw [hlk] at he
    have hq : f.path = q := by
      have := List.find?_some hlk
      simpa using this
    rw [entities_for_path chunksFor f e he, hq]

theorem get_changed_files_eq_nil {fs : List FileInfo} {tr : TrackingRecord}
    (h : ∀ f ∈ fs, file_changed tr f = false) :
    get_changed_files fs tr = [] := by
  unfold get_changed_files
  rw [List.map_eq_nil_iff]
  refine List.filter_eq_nil_iff.mpr ?_
  intro f hf
  rw [h f hf]
  simp

theorem update_tracking_files (tr : TrackingRecord) (fs : List FileInfo)
    (processed : List String) (now : Int) (q : String) :
    (update_tracking tr fs processed now).files q =
      if q ∈ processed then
        match lookup_file fs q with
        | some f => some (f.hash, f.mtime)
        | none => tr.files q
      else tr.files q := rfl

theorem changed_after_update {fs : List FileInfo} {tr : TrackingRecord} {now : Int}
    (hnd : (fs.map FileInfo.path).Nodup) :
    get_changed_files fs
      (update_tracking tr fs (get_changed_files fs tr) now) = [] := by
  refine get_changed_files_eq_nil ?_
  intro f hf
  unfold file_changed
  rw [update_tracking_files]
  by_cases hp : f.path ∈ get_changed_files fs tr
  · rw [if_pos hp, lookup_file_mem hnd hf]
    simp
  · rw [if_neg hp, not_changed_spec hf hp]
    simp

/-- Claim C3: change detection is sound and complete over the files
present on disk — a file is reported changed iff it is on disk and is
untracked or its current (hash, mtime) differs from the tracked pair —
and a path carried by no on-disk file (in particular a tracked file that
was deleted) is never reported.  The query has no deletion output at
all, so deleted files are also never reported as deleted. -/
theorem get_changed_files_sound_complete :
    ∀ (fs : List FileInfo) (tr : TrackingRecord) (p : String),
      (p ∈ get_changed_files fs tr ↔
        ∃ f, f ∈ fs ∧ f.path = p ∧
          (tr.files p = none ∨
            ∃ h m, tr.files p = some (h, m) ∧ (h ≠ f.hash ∨ m ≠ f.mtime))) ∧
      ((∀ f, f ∈ fs → f.path ≠ p) → p ∉ get_changed_files fs tr) := by
  intro fs tr p
  constructor
  · rw [mem_changed_iff]
    constructor
    · rintro ⟨f, hf, rfl, hc⟩
      refine ⟨f, hf, rfl, ?_⟩
      unfold file_changed at hc
      rcases htr : tr.files f.path with - | ⟨h1, m1⟩
      · exact Or.inl rfl
      · rw [htr] at hc
        simp only [Bool.or_eq_true, decide_eq_true_eq] at hc
        exact Or.inr ⟨h1, m1, rfl, hc⟩
    · rintro ⟨f, hf, rfl, hcond⟩
      refine ⟨f, hf, rfl, ?_⟩
      unfold file_changed
      rcases hcond with htr | ⟨h1, m1, htr, hne⟩
      · rw [htr]
      · rw [htr]
        simp only [Bool.or_eq_true, decide_eq_true_eq]
        exact hne
  · intro hall hmem
    obtain ⟨f, hf, hfp, -⟩ := mem_changed_iff.mp hmem
    exact hall f hf hfp

/-- Claim C1 (amended): an incremental pass preserves the §3 invariant
— every tracked file's stored entities are exactly those derived from
its tracked content — **provided the pass short-circuits or reaches its
tracking update** (its chunk list is non-empty).  The pass first deletes
every stored entity whose `path` equals a changed file's path, then
inserts the new chunks, so no stale entity of a changed file survives.
In the excluded case (every chunk filtered out) the deletes happen but
the tracking record is not updated, and the invariant can break — see
the counterexample. -/
theorem index_incremental_preserves_store_inv
    (chunksFor : String → String → List String) (fs : List FileInfo)
    (tr : TrackingRecord) (store : List StoredEntity) (now : Int)
    (hnd : (fs.map FileInfo.path).Nodup)
    (hinv : store_inv chunksFor tr store)
    (hrun : get_changed_files fs tr = [] ∨ pass_chunks chunksFor fs tr ≠ []) :
    store_inv chunksFor
      (index_directory_incremental chunksFor fs tr store now).tracking
      (index_directory_incremental chunksFor fs tr store now).store := by
  by_cases hch : (get_changed_files fs tr).isEmpty
  · unfold index_directory_incremental
    rw [if_pos hch]
    exact hinv
  · have hchunks : ¬(pass_chunks chunksFor fs tr).isEmpty := by
      rcases hrun with h | h
      · exact absurd (by rw [h]; rfl) hch
      · simpa [List.isEmpty_iff] using h
    unfold index_directory_incremental
    rw [if_neg hch, if_neg hchunks]
    intro p h m hpm
    rw [update_tracking_files] at hpm
    by_cases hp : p ∈ get_changed_files fs tr
    · rw [if_pos hp] at hpm
      obtain ⟨f, hf, hfp, -⟩ := mem_changed_iff.mp hp
      subst hfp
      rw [lookup_file_mem hnd hf] at hpm
      have hh : f.hash = h := congrArg Prod.fst (Option.some.inj hpm)
      rw [List.filter_append, filter_foldl_delete, if_pos hp,
        pass_chunks_filter chunksFor fs tr hnd, if_pos hp,
        lookup_file_mem hnd hf, List.nil_append]
      simp [entities_for, hh]
    · rw [if_neg hp] at hpm
      rw [List.filter_append, filter_foldl_delete, if_neg hp,
        pass_chunks_filter chunksFor fs tr hnd, if_neg hp, List.append_nil]
      exact hinv p h m hpm

/-- Claim C2 (amended): if the first incremental run short-circuits or
reaches its tracking update (non-empty chunk list), then a second
incremental run over the unchanged filesystem is a no-op: it returns
"Already up to date" with 0 processed files and 0 chunks, makes zero
delete/embedding/insert calls, and leaves store and tracking untouched.
Without that proviso the claim fails — see the counterexample. -/
theorem index_incremental_second_run_noop
    (chunksFor : String → String → List String) (fs : List FileInfo)
    (tr : TrackingRecord) (store : List StoredEntity) (now1 now2 : Int)
    (hnd : (fs.map FileInfo.path).Nodup)
    (hrun : get_changed_files fs tr = [] ∨ pass_chunks chunksFor fs tr ≠ []) :
    (index_directory_incremental chunksFor fs
        (index_directory_incremental chunksFor fs tr store now1).tracking
        (index_directory_incremental chunksFor fs tr store now1).store
        now2).result =
      { status := "success", message := "Already up to date",
        processed_files := 0, total_chunks := 0 } ∧
    (index_directory_incremental chunksFor fs
        (index_directory_incremental chunksFor fs tr store now1).tracking
        (index_directory_incremental chunksFor fs tr store now1).store
        now2).effects =
      { delete_calls := 0, embedded_chunks := 0, insert_calls := 0 } ∧
    (index_directory_incremental chunksFor fs
        (index_directory_incremental chunksFor fs tr store now1).tracking
        (index_directory_incremental chunksFor fs tr store now1).store
        now2).store =
      (index_directory_incremental chunksFor fs tr store now1).store ∧
    (index_directory_incremental chunksFor fs
        (index_directory_incremental chunksFor fs tr store now1).tracking
        (index_directory_incremental chunksFor fs tr store now1).store
        now2).tracking =
      (index_directory_incremental chunksFor fs tr store now1).tracking := by
  by_cases hch : (get_changed_files fs tr).isEmpty
  · unfold index_directory_incremental
    rw [if_pos hch]
    rw [if_pos hch]
    exact ⟨rfl, rfl, rfl, rfl⟩
  · have hchunks : ¬(pass_chunks chunksFor fs tr).isEmpty := by
      rcases hrun with h | h
      · exact absurd (by rw [h]; rfl) hch
      · simpa [List.isEmpty_iff] using h
    have hafter := @changed_after_update fs tr now1 hnd
    unfold index_directory_incremental
    rw [if_neg hch, if_neg hchunks]
    rw [hafter]
    exact ⟨rfl, rfl, rfl, rfl⟩

theorem get_changed_files_sound_complete_witness :
    "/kb/other.md" ∉ get_changed_files c1_fs c1_tr :=
  (get_changed_files_sound_complete c1_fs c1_tr "/kb/other.md").2 (by decide)

theorem index_incremental_preserves_store_inv_witness :
    store_inv w_chunksFor
      (index_directory_incremental w_chunksFor w_fs w_tr [] 7).tracking
      (index_directory_incremental w_chunksFor w_fs w_tr [] 7).store :=
  index_incremental_preserves_store_inv w_chunksFor w_fs w_tr [] 7
    (by decide)
    (fun p h m hpm => by simp [w_tr] at hpm)
    (Or.inr (by decide))

theorem index_incremental_second_run_noop_witness :
    (index_directory_incremental w_chunksFor w_fs
        (index_directory_incremental w_chunksFor w_fs w_tr [] 7).tracking
        (index_directory_incremental w_chunksFor w_fs w_tr [] 7).store
        9).result =
      { status := "success", message := "Already up to date",
        processed_files := 0, total_chunks := 0 } :=
  (index_incremental_second_run_noop w_chunksFor w_fs w_tr [] 7 9
    (by decide) (Or.inr (by decide))).1

/-- Claim C1 counterexample: the invariant held before the pass, the
single tracked file changed to content whose chunks are all filtered
out, and the pass (which returns a *success* result) deletes the old
entities but never updates the tracking record — afterwards the tracked
file's entities are gone while its tracking entry still names the old
content, violating the invariant. -/
theorem index_incremental_store_inv_counterexample :
    store_inv c1_chunksFor c1_tr c1_store ∧
    ¬ store_inv c1_chunksFor c1_outcome.tracking c1_outcome.store := by
  constructor
  · intro p h m hpm
    by_cases hp : p = "/kb/doc.md"
    · subst hp
      simp only [c1_tr, if_true] at hpm
      obtain ⟨rfl, rfl⟩ := hpm
      decide
    · simp [c1_tr, hp] at hpm
  · intro hinv
    have h1 : c1_outcome.tracking.files "/kb/doc.md" = some ("h1", 5) := by decide
    have h2 := hinv "/kb/doc.md" "h1" 5 h1
    revert h2
    decide

/-- Claim C2 counterexample: for a root whose single file yields no
chunks (all below the 50-character minimum), the first run never updates
tracking, so a second run over the unchanged filesystem still sees the
file as changed, issues a delete call to the vector store, and returns
"No content to index (all chunks empty)" with 1 processed file — not
the claimed no-op "Already up to date" with 0 processed files and zero
writes. -/
theorem index_incremental_idempotence_counterexample :
    get_changed_files c2_fs c2_run1.tracking = ["/kb/tiny.md"] ∧
    c2_run2.result.message = "No content to index (all chunks empty)" ∧
    c2_run2.result.processed_files = 1 ∧
    c2_run2.effects.delete_calls = 1 := by decide

/-! ## C5 — extraction failure behaviour -/

/-- Claim C5 counterexample: extraction *can* raise past its own
boundary — a permission-denied `.py` file propagates `PermissionError`
(`PythonParser` catches only `FileNotFoundError` and
`UnicodeDecodeError`), and a non-UTF-8 `.ipynb` propagates
`UnicodeDecodeError` (`JupyterParser` catches only `FileNotFoundError`
and `json.JSONDecodeError`). -/
theorem extract_metadata_raises_counterexample :
    extract_metadata (fun _ => none) (fun _ => none) (fun _ => none)
      "/kb/tools.py" .permissionDenied = .error "PermissionError" ∧
    extract_metadata (fun _ => none) (fun _ => none) (fun _ => none)
      "/kb/nb.ipynb" .undecodable = .error "UnicodeDecodeError" := by decide

/-- Claim C5 (amended): for every listed *parse* failure the extractor
degrades to the minimal record for the kind — kind set, every
structural field (module/classes/functions/imports/main-guard,
kernel/cell counts, numeric front-matter fields) absent — and never
raises: a missing file or undecodable source or `SyntaxError` for
Python, a missing file or malformed JSON for notebooks, and *any* read
or front-matter failure for markdown.  What escapes (forced by the
counterexample) is only a `PermissionError` on `.py`/`.ipynb` and a
`UnicodeDecodeError` on `.ipynb`. -/
theorem extract_metadata_degrades_amended :
    ∀ (pyParse : String → Option PyModule) (jsonParse : String → Option Notebook)
      (fmParse : String → Option (List (String × FmValue) × String))
      (file_path src : String),
      PythonParser_extract_metadata pyParse file_path .missing =
        .ok { file_type := some "py" } ∧
      PythonParser_extract_metadata pyParse file_path .undecodable =
        .ok { file_type := some "py" } ∧
      (pyParse src = none →
        PythonParser_extract_metadata pyParse file_path (.content src) =
          .ok { file_type := some "py" }) ∧
      JupyterParser_extract_metadata jsonParse .missing =
        .ok { file_type := some "ipynb" } ∧
      (jsonParse src = none →
        JupyterParser_extract_metadata jsonParse (.content src) =
          .ok { file_type := some "ipynb" }) ∧
      markdown_extract_metadata fmParse .missing =
        { file_type := some "md", created := some "", author := some "" } ∧
      (fmParse src = none →
        (markdown_extract_metadata fmParse (.content src)).file_type = some "md" ∧
        (markdown_extract_metadata fmParse (.content src)).module_name = none ∧
        (markdown_extract_metadata fmParse (.content src)).classes = none ∧
        (markdown_extract_metadata fmParse (.content src)).functions = none ∧
        (markdown_extract_metadata fmParse (.content src)).imports = none ∧
        (markdown_extract_metadata fmParse (.content src)).has_main = none ∧
        (markdown_extract_metadata fmParse (.content src)).kernel_spec = none ∧
        (markdown_extract_metadata fmParse (.content src)).cell_count = none ∧
        (markdown_extract_metadata fmParse (.content src)).code_cell_count = none ∧
        (markdown_extract_metadata fmParse (.content src)).markdown_cell_count = none ∧
        (markdown_extract_metadata fmParse (.content src)).type_field = none ∧
        (markdown_extract_metadata fmParse (.content src)).strategy = none ∧
        (markdown_extract_metadata fmParse (.content src)).sharpe = none ∧
        (markdown_extract_metadata fmParse (.content src)).cagr = none ∧
        (markdown_extract_metadata fmParse (.content src)).drawdown = none ∧
        (markdown_extract_metadata fmParse (.content src)).custom = []) := by
  intro pyParse jsonParse fmParse file_path src
  refine ⟨rfl, rfl, ?_, rfl, ?_, ?_, ?_⟩
  · intro h
    simp [PythonParser_extract_metadata, h]
  · intro h
    simp [JupyterParser_extract_metadata, h]
  · have hm : parse_frontmatter fmParse ReadResult.missing = ([], "") := rfl
    unfold markdown_extract_metadata
    rw [hm]
    decide
  · intro h
    have hpf : parse_frontmatter fmParse (.content src) = ([], src) := by
      simp [parse_frontmatter, h]
    unfold markdown_extract_metadata
    rw [hpf]
    exact ⟨rfl, rfl, rfl, rfl, rfl, rfl, rfl, rfl, rfl, rfl, rfl, rfl, rfl, rfl,
      rfl, rfl⟩

theorem extract_metadata_degrades_amended_witness :
    PythonParser_extract_metadata (fun _ => none) "/kb/broken.py" (.content "def (") =
      .ok { file_type := some "py" } :=
  ((extract_metadata_degrades_amended (fun _ => none) (fun _ => none)
      (fun _ => none) "/kb/broken.py" "def (").2.2.1) rfl

/-! ## C8 — multi-root aggregate search -/

/-- Claim C8: an aggregate (no-root) search queries every path of every
registered knowledge base independently, returns success whenever the
registry is non-empty (a failing root contributes zero results rather
than failing the query), and its output is at most `limit` results,
sorted descending by score, each traceable to one root's successful
result list and tagged with that root's knowledge-base name.  The two
closed conjuncts are the spec's concrete instance: with per-root scores
0.9 and 0.6 and `limit = 1` exactly the 0.9 result is returned, tagged
`kb1`; and when the 0.9 root fails, the aggregate still succeeds with
the 0.6 result. -/
theorem knowledge_search_aggregate_correct :
    (∀ (searchFn : String → Fallible (List RawResult))
       (kbs : List (String × List String)) (lim : Nat),
      kbs ≠ [] →
      ∃ out, knowledge_search_aggregate searchFn kbs lim = .ok out ∧
        out.length ≤ lim ∧
        out.Pairwise (fun a b => b.result.score ≤ a.result.score) ∧
        ∀ r ∈ out, ∃ kb rs, kb ∈ kbs ∧ r.knowledge_base = kb.1 ∧
          ∃ p ∈ kb.2, searchFn p = .ok rs ∧ r.result ∈ rs) ∧
    knowledge_search_aggregate ex_searchFn ex_kbs 1 =
      .ok [{ result := ex_hit1, knowledge_base := "kb1" }] ∧
    knowledge_search_aggregate ex_searchFn_fail ex_kbs 2 =
      .ok [{ result := ex_hit2, knowledge_base := "kb2" }] := by
  refine ⟨?_, by decide, by decide⟩
  intro searchFn kbs lim hne
  unfold knowledge_search_aggregate
  rw [if_neg (by simpa [List.isEmpty_iff] using hne)]
  refine ⟨_, rfl, ?_, ?_, ?_⟩
  · simp [List.length_take]
  · have hs := @pairwise_sort_by TaggedResult
      (fun a b => decide (b.result.score ≤ a.result.score))
      (fun a b => by
        rcases le_total b.result.score a.result.score with h | h
        · exact Or.inl (by simpa using h)
        · exact Or.inr (by simpa using h))
      (fun a b c h1 h2 => by
        simp only [decide_eq_true_eq] at h1 h2 ⊢
        exact le_trans h2 h1)
      (kbs.flatMap fun kb => kb.2.flatMap fun p =>
        match searchFn p with
        | .ok rs => rs.map fun r => { result := r, knowledge_base := kb.1 }
        | .error _ => [])
    have hsub := List.Pairwise.sublist (List.take_sublist lim _) hs
    exact hsub.imp fun h => by simpa using h
  · intro r hr
    have hr2 := List.mem_of_mem_take hr
    rw [mem_sort_by] at hr2
    rcases List.mem_flatMap.mp hr2 with ⟨kb, hkb, hrkb⟩
    rcases List.mem_flatMap.mp hrkb with ⟨p, hp, hrp⟩
    rcases hsf : searchFn p with rs | msg
    · rw [hsf] at hrp
      rcases List.mem_map.mp hrp with ⟨raw, hraw, rfl⟩
      exact ⟨kb, rs, hkb, rfl, p, hp, hsf, hraw⟩
    · rw [hsf] at hrp
      cases hrp

theorem knowledge_search_aggregate_correct_witness :
    ∃ out, knowledge_search_aggregate ex_searchFn ex_kbs 1 = .ok out ∧
      out.length ≤ 1 ∧
      out.Pairwise (fun a b => b.result.score ≤ a.result.score) ∧
      ∀ r ∈ out, ∃ kb rs, kb ∈ ex_kbs ∧ r.knowledge_base = kb.1 ∧
        ∃ p ∈ kb.2, ex_searchFn p = .ok rs ∧ r.result ∈ rs :=
  knowledge_search_aggregate_correct.1 ex_searchFn ex_kbs 1 (by decide)
